import Mathlib

/-!
Verification model of the `nekro_plugin_mcp_connect` repository.

The definitions below are a shallow embedding of `src/__init__.py` (the
MCP plugin built on per-call HTTP requests: configuration parsing,
health checks, query / tool-execution calls and the query cache), plus a
`SpecModel` namespace holding definitions modelled from the design
document for the streaming-session core (connection retry policy, batch
dispatcher, config reconciler) whose code is not part of `src/`.

Conventions: Python strings are Lean `String` (character based:
`startswith` / `endswith` / slicing are modelled on `String.data`);
machine integers are `Int`; every fallible Python operation is an
explicit `Option` / `Except`; outcomes of HTTP requests are passed in as
explicit environment values.  Functions that issue an HTTP request in
the source additionally return a `Bool` (or `Option String`) recording
whether (and to which URL) a request was issued, so that "the server is
contacted" is a provable statement.
-/

/-- Character-list prefix test, used to model Python `str.startswith`. -/
def listIsPre : List Char → List Char → Bool
  | [], _ => true
  | _ :: _, [] => false
  | a :: as, b :: bs => a == b && listIsPre as bs

/-- Model of Python `str.startswith` (character based). -/
def pyStartsWith (s p : String) : Bool := listIsPre p.data s.data

/-- Model of Python `str.endswith` (character based). -/
def pyEndsWith (s p : String) : Bool := listIsPre p.data.reverse s.data.reverse

/-- Model of Python slicing `s[:n]` (character based). -/
def pyTake (n : Nat) (s : String) : String := ⟨s.data.take n⟩

/-- Model of Python `int(s)` on a decimal string: optional surrounding
whitespace, optional sign, then at least one digit; anything else raises
`ValueError`, modelled as `none`. -/
def pyInt (s : String) : Option Int :=
  let ws : Char → Bool := fun c => c == ' ' || c == '\t' || c == '\n' || c == '\r'
  let cs := ((s.data.dropWhile ws).reverse.dropWhile ws).reverse
  let (neg, ds) : Bool × List Char :=
    match cs with
    | '-' :: rest => (true, rest)
    | '+' :: rest => (false, rest)
    | rest => (false, rest)
  if ds ≠ [] && ds.all Char.isDigit then
    let n : Nat := ds.foldl (fun acc c => acc * 10 + (c.toNat - 48)) 0
    some (if neg then -(n : Int) else (n : Int))
  else
    none

/-- JSON values as produced by Python `json.loads`.  Numbers keep their
source lexeme (no numeric field of the plugin configuration is ever
consumed numerically). -/
inductive JSON where
  | null : JSON
  | bool (b : Bool) : JSON
  | num (lexeme : String) : JSON
  | str (s : String) : JSON
  | arr (items : List JSON) : JSON
  | obj (fields : List (String × JSON)) : JSON

/-- Python `dict` lookup on the field list of a parsed JSON object: for a
duplicated key, `json.loads` keeps the last occurrence. -/
def lookupLast (fs : List (String × JSON)) (k : String) : Option JSON :=
  ((fs.filter (fun p => p.1 == k)).getLast?).map (fun p => p.2)

/-- Is a character JSON whitespace (as accepted by `json.loads`)? -/
def isJsonWs (c : Char) : Bool :=
  c == ' ' || c == '\t' || c == '\n' || c == '\r'

/-- Drop leading JSON whitespace. -/
def skipWs : List Char → List Char
  | c :: cs => if isJsonWs c then skipWs cs else c :: cs
  | [] => []

/-- Lex the digits prefix of a character stream. -/
def takeDigits : List Char → List Char × List Char
  | c :: cs =>
    if c.isDigit then
      let (ds, rest) := takeDigits cs
      (c :: ds, rest)
    else ([], c :: cs)
  | [] => ([], [])

/-- Lex a JSON number starting at the stream head (a leading minus sign
is split off by the caller); returns the lexeme and the rest. -/
def lexNumberTail (cs : List Char) : Option (List Char × List Char) :=
  match takeDigits cs with
  | ([], _) => none
  | (intDigits, rest) =>
    let intOk :=
      match intDigits with
      | ['0'] => true
      | '0' :: _ :: _ => false
      | _ => true
    if !intOk then none
    else
      match rest with
      | '.' :: cs2 =>
        (match takeDigits cs2 with
         | ([], _) => none
         | (ds, r2) => lexNumberExp (intDigits ++ '.' :: ds) r2)
      | r => lexNumberExp intDigits r

where
  /-- Lex an optional exponent part and finish the lexeme. -/
  lexNumberExp (lex : List Char) (cs : List Char) : Option (List Char × List Char) :=
    match cs with
    | e :: cs3 =>
      if e == 'e' || e == 'E' then
        let (sign, cs4) :=
          match cs3 with
          | '+' :: r => (['+'], r)
          | '-' :: r => (['-'], r)
          | r => (([] : List Char), r)
        match takeDigits cs4 with
        | ([], _) => none
        | (ds, r5) => some (lex ++ e :: sign ++ ds, r5)
      else some (lex, e :: cs3)
    | [] => some (lex, [])

/-- Value of a hexadecimal digit. -/
def hexVal (c : Char) : Nat :=
  if c.isDigit then c.toNat - 48
  else if c ≥ 'a' then c.toNat - 87 else c.toNat - 55

/-- Is a character a hexadecimal digit? -/
def charIsHex (c : Char) : Bool :=
  c.isDigit || ('a' ≤ c && c ≤ 'f') || ('A' ≤ c && c ≤ 'F')

/-- Lex the body of a JSON string (opening quote already consumed),
decoding escapes; `\uXXXX` decodes to the character with that code
(surrogate pairs are out of scope for this model). -/
def lexStringBody : List Char → Option (List Char × List Char)
  | [] => none
  | '"' :: r => some ([], r)
  | '\\' :: 'u' :: a :: b :: c :: d :: r =>
    if charIsHex a && charIsHex b && charIsHex c && charIsHex d then
      let n := ((hexVal a * 16 + hexVal b) * 16 + hexVal c) * 16 + hexVal d
      match lexStringBody r with
      | none => none
      | some (cs, r2) => some (Char.ofNat n :: cs, r2)
    else none
  | '\\' :: e :: r =>
    let dec : Option Char :=
      if e == '"' then some '"'
      else if e == '\\' then some '\\'
      else if e == '/' then some '/'
      else if e == 'b' then some '\x08'
      else if e == 'f' then some '\x0c'
      else if e == 'n' then some '\n'
      else if e == 'r' then some '\r'
      else if e == 't' then some '\t'
      else none
    match dec with
    | none => none
    | some c =>
      match lexStringBody r with
      | none => none
      | some (cs, r2) => some (c :: cs, r2)
  | c :: r =>
    if c.toNat < 32 then none
    else
      match lexStringBody r with
      | none => none
      | some (cs, r2) => some (c :: cs, r2)

/-- Parsing mode for `parseCore`: a single value, the items of a
non-empty array (collected into `.arr`), or the fields of a non-empty
object (collected into `.obj`). -/
inductive PMode where
  | val : PMode
  | arrTail : PMode
  | objTail : PMode

/-- Fuel-bounded parser core for the strict JSON grammar of Python
`json.loads` (which accepts no comments); written as a single function,
structurally recursive on the fuel, so that it evaluates inside the
kernel.  The `NaN` / `Infinity` extensions accepted by Python are
included as number lexemes. -/
def parseCore (fuel : Nat) (mode : PMode) (cs : List Char) : Option (JSON × List Char) :=
  match fuel with
  | 0 => none
  | fuel + 1 =>
    match mode with
    | .val =>
      (match skipWs cs with
       | 't' :: 'r' :: 'u' :: 'e' :: r => some (.bool true, r)
       | 'f' :: 'a' :: 'l' :: 's' :: 'e' :: r => some (.bool false, r)
       | 'n' :: 'u' :: 'l' :: 'l' :: r => some (.null, r)
       | 'N' :: 'a' :: 'N' :: r => some (.num "NaN", r)
       | 'I' :: 'n' :: 'f' :: 'i' :: 'n' :: 'i' :: 't' :: 'y' :: r => some (.num "Infinity", r)
       | '"' :: r =>
         (match lexStringBody r with
          | some (body, r2) => some (.str ⟨body⟩, r2)
          | none => none)
       | '[' :: r =>
         (match skipWs r with
          | ']' :: r2 => some (.arr [], r2)
          | r2 => parseCore fuel .arrTail r2)
       | '{' :: r =>
         (match skipWs r with
          | '}' :: r2 => some (.obj [], r2)
          | r2 => parseCore fuel .objTail r2)
       | '-' :: 'I' :: 'n' :: 'f' :: 'i' :: 'n' :: 'i' :: 't' :: 'y' :: r =>
         some (.num "-Infinity", r)
       | '-' :: r =>
         (match lexNumberTail r with
          | some (lex, r2) => some (.num ⟨'-' :: lex⟩, r2)
          | none => none)
       | c :: r =>
         if c.isDigit then
           match lexNumberTail (c :: r) with
           | some (lex, r2) => some (.num ⟨lex⟩, r2)
           | none => none
         else none
       | [] => none)
    | .arrTail =>
      (match parseCore fuel .val cs with
       | none => none
       | some (v, r) =>
         match skipWs r with
         | ',' :: r2 =>
           (match parseCore fuel .arrTail r2 with
            | some (.arr vs, r3) => some (.arr (v :: vs), r3)
            | _ => none)
         | ']' :: r2 => some (.arr [v], r2)
         | _ => none)
    | .objTail =>
      (match skipWs cs with
       | '"' :: r =>
         (match lexStringBody r with
          | none => none
          | some (key, r2) =>
            match skipWs r2 with
            | ':' :: r3 =>
              (match parseCore fuel .val r3 with
               | none => none
               | some (v, r4) =>
                 match skipWs r4 with
                 | ',' :: r5 =>
                   (match parseCore fuel .objTail r5 with
                    | some (.obj fs, r6) => some (.obj ((⟨key⟩, v) :: fs), r6)
                    | _ => none)
                 | '}' :: r5 => some (.obj [(⟨key⟩, v)], r5)
                 | _ => none)
            | _ => none)
       | _ => none)

/-- Model of Python `json.loads`: parse one JSON document and require
that only whitespace follows it ("Extra data" otherwise). -/
def jsonParse (s : String) : Option JSON :=
  match parseCore (s.length + 1) .val s.data with
  | some (v, rest) => if skipWs rest == [] then some v else none
  | none => none

/-- Service types of `MCPServiceType` in `src/__init__.py`. -/
inductive MCPServiceType where
  | query : MCPServiceType
  | tool : MCPServiceType
  | resource : MCPServiceType
  | hybrid : MCPServiceType
deriving DecidableEq, Repr

/-- One parsed server configuration (`MCPServerConfig` in
`src/__init__.py`), field for field. -/
structure MCPServerConfig where
  name : String
  endpoint : String
  enabled : Bool
  description : String
  service_type : MCPServiceType
  prompt_template : String
  resources : List String
  tools : List String
  headers : List (String × String)
  auth_token : String
deriving DecidableEq, Repr

/-- The `validate_endpoint` model validator of `MCPServerConfig`: an
endpoint that starts with neither scheme gets `http://` prepended. -/
def validateEndpoint (e : String) : String :=
  if pyStartsWith e "http://" || pyStartsWith e "https://" then e
  else "http://" ++ e

/-- Construction of an `MCPServerConfig`; pydantic runs the
`validate_endpoint` validator after assigning the fields. -/
def mkServerConfig (name endpoint : String) (enabled : Bool) (description : String)
    (service_type : MCPServiceType) (prompt_template : String)
    (resources tools : List String) (headers : List (String × String))
    (auth_token : String) : MCPServerConfig :=
  { name := name
    endpoint := validateEndpoint endpoint
    enabled := enabled
    description := description
    service_type := service_type
    prompt_template := prompt_template
    resources := resources
    tools := tools
    headers := headers
    auth_token := auth_token }

/-- Decode a required string field (pydantic: missing or non-string
raises a validation error). -/
def reqStr (o : Option JSON) : Option String :=
  match o with
  | some (.str s) => some s
  | _ => none

/-- Decode an optional string field with a default. -/
def optStr (dflt : String) (o : Option JSON) : Option String :=
  match o with
  | none => some dflt
  | some (.str s) => some s
  | _ => none

/-- Decode an optional boolean field with a default. -/
def optBool (dflt : Bool) (o : Option JSON) : Option Bool :=
  match o with
  | none => some dflt
  | some (.bool b) => some b
  | _ => none

/-- Decode an optional list-of-strings field (default `[]`). -/
def optStrList (o : Option JSON) : Option (List String) :=
  match o with
  | none => some []
  | some (.arr xs) =>
    xs.foldr (fun x acc =>
      match x, acc with
      | .str s, some ss => some (s :: ss)
      | _, _ => none) (some [])
  | _ => none

/-- Decode an optional string-to-string mapping field (default `{}`). -/
def optStrMap (o : Option JSON) : Option (List (String × String)) :=
  match o with
  | none => some []
  | some (.obj fs) =>
    fs.foldr (fun p acc =>
      match p.2, acc with
      | .str v, some ps => some ((p.1, v) :: ps)
      | _, _ => none) (some [])
  | _ => none

/-- Decode the `service_type` enum field. -/
def decodeServiceType (o : Option JSON) : Option MCPServiceType :=
  match o with
  | some (.str s) =>
    if s = "query" then some .query
    else if s = "tool" then some .tool
    else if s = "resource" then some .resource
    else if s = "hybrid" then some .hybrid
    else none
  | _ => none

/-- Decode one entry of the `servers` list, modelling the loop body of
`_parse_server_configs`: the code first inserts
`service_type = "hybrid"` when the key is missing, then constructs an
`MCPServerConfig`; any exception makes the entry be skipped (`none`). -/
def decodeServerEntry (j : JSON) : Option MCPServerConfig :=
  match j with
  | .obj fields =>
    let fields :=
      if (lookupLast fields "service_type").isSome then fields
      else fields ++ [("service_type", .str "hybrid")]
    do
      let name ← reqStr (lookupLast fields "name")
      let endpoint ← reqStr (lookupLast fields "endpoint")
      let enabled ← optBool true (lookupLast fields "enabled")
      let description ← optStr "" (lookupLast fields "description")
      let service_type ← decodeServiceType (lookupLast fields "service_type")
      let prompt_template ← optStr "" (lookupLast fields "prompt_template")
      let resources ← optStrList (lookupLast fields "resources")
      let tools ← optStrList (lookupLast fields "tools")
      let headers ← optStrMap (lookupLast fields "headers")
      let auth_token ← optStr "" (lookupLast fields "auth_token")
      pure (mkServerConfig name endpoint enabled description service_type
        prompt_template resources tools headers auth_token)
  | _ => none

/-- Python iteration over the `servers` value: a list yields its items, a
string yields its one-character substrings, a dict yields its keys; any
other value raises `TypeError` (`none`), which escapes the per-entry
handler and aborts `_parse_server_configs`. -/
def iterableEntries : JSON → Option (List JSON)
  | .arr xs => some xs
  | .str s => some (s.data.map (fun c => JSON.str ⟨[c]⟩))
  | .obj fs => some (fs.map (fun p => JSON.str p.1))
  | _ => none

/-- Model of `_parse_server_configs`: takes the raw configuration text
and the previous value of the module-global `server_configs`, returns
the function result together with the new value of `server_configs`.
The global is reassigned only in the `else` clause of the
`try` statement, which runs exactly when control falls through the whole
`try` body without an early `return` and without an escaping
exception. -/
def parseServerConfigs (raw : String) (prev : List MCPServerConfig) :
    List MCPServerConfig × List MCPServerConfig :=
  match jsonParse raw with
  | none => ([], prev)
  | some j =>
    match j with
    | .obj fields =>
      match lookupLast fields "servers" with
      | none => ([], prev)
      | some serversVal =>
        match iterableEntries serversVal with
        | none => ([], prev)
        | some entries =>
          let configs := entries.filterMap decodeServerEntry
          (configs, configs)
    | _ => ([], prev)

/-- The plugin-level configuration values consumed by the request layer
(`MCPConfig` in `src/__init__.py`). -/
structure MCPGlobalConfig where
  REQUEST_TIMEOUT : Int := 10
  MAX_RESPONSE_SIZE : Int := 5242880
  CACHE_EXPIRY : Int := 0
  HEALTH_CHECK_INTERVAL : Int := 300
deriving DecidableEq, Repr

/-- The default plugin configuration. -/
def defaultGlobalConfig : MCPGlobalConfig := {}

/-- Python `str()` of the type name of a `json.loads` value, as it
appears in `AttributeError` messages. -/
def pyTypeName : JSON → String
  | .null => "NoneType"
  | .bool _ => "bool"
  | .num lex => if lex.data.all (fun c => c.isDigit || c == '-') then "int" else "float"
  | .str _ => "str"
  | .arr _ => "list"
  | .obj _ => "dict"

mutual

/-- Python `repr()` of a `json.loads` value (as used by `str()` on
containers); string escaping inside `repr` is simplified to plain
single quotes, which no theorem below depends on. -/
def pyRepr : JSON → String
  | .null => "None"
  | .bool true => "True"
  | .bool false => "False"
  | .num lex => lex
  | .str s => "\x27" ++ s ++ "\x27"
  | .arr xs => "[" ++ String.intercalate ", " (pyReprList xs) ++ "]"
  | .obj fs => "\x7b" ++ String.intercalate ", " (pyReprFields fs) ++ "\x7d"

/-- `repr()` of the items of a list. -/
def pyReprList : List JSON → List String
  | [] => []
  | x :: xs => pyRepr x :: pyReprList xs

/-- `repr()` of the key-value pairs of a dict. -/
def pyReprFields : List (String × JSON) → List String
  | [] => []
  | (k, v) :: fs => ("\x27" ++ k ++ "\x27: " ++ pyRepr v) :: pyReprFields fs

end

/-- Python `str()` of a `json.loads` value: a string prints itself,
containers print their `repr`. -/
def pyStrOf : JSON → String
  | .str s => s
  | j => pyRepr j

/-- An HTTP response as observed by the plugin: status code, the
`Content-Length` header if present, the response text, and the outcome
of `response.json()` (`Except.error` carries the decode exception
text). -/
structure HttpResponse where
  status : Int
  contentLengthHeader : Option String
  text : String
  json : Except String JSON

/-- The outcome of one `httpx` POST, supplied as environment data: a
response, a timeout (`httpx.TimeoutException`), a transport error
(`httpx.RequestError`) or any other exception raised inside the `try`
block before the response is examined. -/
inductive HttpOutcome where
  | response (r : HttpResponse) : HttpOutcome
  | timeout : HttpOutcome
  | requestError (msg : String) : HttpOutcome
  | otherError (msg : String) : HttpOutcome

/-- Model of `_prepare_mcp_request`: find the first configuration whose
name matches and which is enabled; `none` models the `(None, "", {})`
return.  On success returns the configuration, the full endpoint URL and
the request headers (custom headers, then the bearer token
overwriting any `Authorization` entry). -/
def prepareMCPRequest (configs : List MCPServerConfig) (serviceName suffix : String) :
    Option (MCPServerConfig × String × List (String × String)) :=
  match configs.find? (fun s => s.name == serviceName && s.enabled) with
  | none => none
  | some sc =>
    let endpoint := if pyEndsWith sc.endpoint suffix then sc.endpoint else sc.endpoint ++ suffix
    let headers :=
      if sc.auth_token ≠ "" then
        (sc.headers.filter (fun p => p.1 ≠ "Authorization")) ++
          [("Authorization", "Bearer " ++ sc.auth_token)]
      else sc.headers
    some (sc, endpoint, headers)

/-- Extraction of the success result in `_call_mcp_service` and
`_execute_mcp_tool`: `result.get("result", str(result))` on the decoded
JSON body; a non-dict body raises `AttributeError`, which the generic
handler turns into the "exception" error text built by `excMsg`. -/
def extractResult (excMsg : String → String) (j : JSON) : String :=
  match j with
  | .obj fs =>
    match lookupLast fs "result" with
    | some v => pyStrOf v
    | none => pyStrOf (.obj fs)
  | _ => excMsg ("\x27" ++ pyTypeName j ++ "\x27 object has no attribute \x27get\x27")

/-- Model of the `try` block of `_call_mcp_service` given the outcome of
the POST to the `/query` endpoint. -/
def callMCPServiceBody (cfg : MCPGlobalConfig) (serviceName : String) (o : HttpOutcome) : String :=
  let excMsg : String → String := fun e => "错误: MCP 服务调用异常: " ++ e
  match o with
  | .timeout =>
    "错误: MCP 服务 \x27" ++ serviceName ++ "\x27 请求超时 (>" ++
      toString cfg.REQUEST_TIMEOUT ++ "秒)"
  | .requestError m => "错误: MCP 服务连接失败: " ++ m
  | .otherError m => excMsg m
  | .response r =>
    if r.status ≠ 200 then
      "错误: MCP 服务 \x27" ++ serviceName ++ "\x27 返回状态码 " ++ toString r.status ++
        ": " ++ pyTake 100 r.text ++ "..."
    else
      match pyInt (r.contentLengthHeader.getD "0") with
      | none =>
        excMsg ("invalid literal for int() with base 10: \x27" ++
          r.contentLengthHeader.getD "0" ++ "\x27")
      | some contentLength =>
        if contentLength > cfg.MAX_RESPONSE_SIZE then
          "错误: MCP 服务 \x27" ++ serviceName ++ "\x27 响应大小 (" ++
            toString contentLength ++ " 字节) 超过限制 (" ++
            toString cfg.MAX_RESPONSE_SIZE ++ " 字节)"
        else
          match r.json with
          | .error em => excMsg em
          | .ok j => extractResult excMsg j

/-- Model of `_call_mcp_service`: resolve the service, then run the
request body; the second component records whether a POST was issued. -/
def callMCPService (cfg : MCPGlobalConfig) (configs : List MCPServerConfig)
    (serviceName _query : String) (o : HttpOutcome) : String × Bool :=
  match prepareMCPRequest configs serviceName "/query" with
  | none => ("错误: 未找到名为 \x27" ++ serviceName ++ "\x27 的可用 MCP 服务", false)
  | some _ => (callMCPServiceBody cfg serviceName o, true)

/-- Model of the `try` block of `_execute_mcp_tool` given the outcome of
the POST to the `/execute` endpoint (no response-size check here, unlike
the query path). -/
def executeMCPToolBody (cfg : MCPGlobalConfig) (serviceName : String) (o : HttpOutcome) : String :=
  let excMsg : String → String := fun e => "错误: MCP 工具执行异常: " ++ e
  match o with
  | .timeout =>
    "错误: MCP 服务 \x27" ++ serviceName ++ "\x27 请求超时 (>" ++
      toString cfg.REQUEST_TIMEOUT ++ "秒)"
  | .requestError m => "错误: MCP 服务连接失败: " ++ m
  | .otherError m => excMsg m
  | .response r =>
    if r.status ≠ 200 then
      "错误: MCP 服务 \x27" ++ serviceName ++ "\x27 返回状态码 " ++ toString r.status ++
        ": " ++ pyTake 100 r.text ++ "..."
    else
      match r.json with
      | .error em => excMsg em
      | .ok j => extractResult excMsg j

/-- Model of `_execute_mcp_tool`: resolve the service, reject a tool
that is absent from a declared non-empty tool list, then run the
request body; the second component records whether a POST was issued. -/
def executeMCPTool (cfg : MCPGlobalConfig) (configs : List MCPServerConfig)
    (serviceName toolName : String) (_args : List String) (o : HttpOutcome) : String × Bool :=
  match prepareMCPRequest configs serviceName "/execute" with
  | none => ("错误: 未找到名为 \x27" ++ serviceName ++ "\x27 的可用 MCP 服务", false)
  | some (sc, _, _) =>
    if sc.tools ≠ [] ∧ toolName ∉ sc.tools then
      ("错误: MCP 服务 \x27" ++ serviceName ++ "\x27 不支持工具 \x27" ++ toolName ++ "\x27", false)
    else
      (executeMCPToolBody cfg serviceName o, true)

/-- One entry of the query-result cache: the stored result text and the
time it was stored. -/
structure CacheEntry where
  result : String
  timestamp : Int
deriving DecidableEq, Repr

/-- Replace-or-insert into an association list, modelling assignment
into a Python dict. -/
def alSet {α : Type} (l : List (String × α)) (k : String) (v : α) : List (String × α) :=
  if (l.find? (fun p => p.1 == k)).isSome then
    l.map (fun p => if p.1 == k then (k, v) else p)
  else l ++ [(k, v)]

/-- Dict lookup in an association list. -/
def alGet {α : Type} (l : List (String × α)) (k : String) : Option α :=
  (l.find? (fun p => p.1 == k)).map (fun p => p.2)

/-- The module-global `mcp_cache`: chat key → service name → cache key →
entry. -/
def MCPCache : Type := List (String × List (String × List (String × CacheEntry)))

/-- The empty cache. -/
def emptyCache : MCPCache := []

/-- Three-level lookup into `mcp_cache`. -/
def cacheGet (cache : MCPCache) (chatKey serviceName cacheKey : String) : Option CacheEntry :=
  match alGet cache chatKey with
  | none => none
  | some m1 =>
    match alGet m1 serviceName with
    | none => none
    | some m2 => alGet m2 cacheKey

/-- Three-level insertion into `mcp_cache`, creating the intermediate
dicts exactly as `mcp_query` does. -/
def cacheSet (cache : MCPCache) (chatKey serviceName cacheKey : String)
    (e : CacheEntry) : MCPCache :=
  let m1 := (alGet cache chatKey).getD []
  let m2 := (alGet m1 serviceName).getD []
  alSet cache chatKey (alSet m1 serviceName (alSet m2 cacheKey e))

/-- The outcome of one `mcp_query` call. -/
structure QueryOutcome where
  output : String
  cache : MCPCache
  calledService : Bool

/-- Model of the `mcp_query` sandbox method: check the cache (only when
`CACHE_EXPIRY > 0` and the entry is fresh), otherwise invoke
`_call_mcp_service` — its result text is the `serviceResult` argument —
and store the result under the current timestamp.  `calledService`
records whether `_call_mcp_service` was invoked. -/
def mcpQuery (cfg : MCPGlobalConfig) (cache : MCPCache) (chatKey serviceName query : String)
    (now : Int) (serviceResult : String) : QueryOutcome :=
  let cacheKey := "query:" ++ query
  let hit : Option CacheEntry :=
    if cfg.CACHE_EXPIRY > 0 then cacheGet cache chatKey serviceName cacheKey else none
  match hit with
  | some e =>
    if now - e.timestamp < cfg.CACHE_EXPIRY then
      { output := "[MCP:" ++ serviceName ++ "] 缓存结果 (" ++ toString (now - e.timestamp) ++
          "秒前):\n" ++ e.result
        cache := cache
        calledService := false }
    else
      { output := "[MCP:" ++ serviceName ++ "] 查询结果:\n" ++ serviceResult
        cache := cacheSet cache chatKey serviceName cacheKey ⟨serviceResult, now⟩
        calledService := true }
  | none =>
    { output := "[MCP:" ++ serviceName ++ "] 查询结果:\n" ++ serviceResult
      cache := cacheSet cache chatKey serviceName cacheKey ⟨serviceResult, now⟩
      calledService := true }

/-- Model of the `mcp_execute_tool` sandbox method: run
`_execute_mcp_tool` and wrap its result text. -/
def mcpExecuteTool (cfg : MCPGlobalConfig) (configs : List MCPServerConfig)
    (serviceName toolName : String) (args : List String) (o : HttpOutcome) : String × Bool :=
  let r := executeMCPTool cfg configs serviceName toolName args o
  ("[MCP:" ++ serviceName ++ "] 执行工具 \x27" ++ toolName ++ "\x27 结果:\n" ++ r.1, r.2)

/-- A service-status record (`MCPServiceStatus` in `src/__init__.py`). -/
structure MCPServiceStatus where
  name : String
  endpoint : String
  status : String
  last_check : Int
  error_message : Option String := none
  capabilities : List String := []
  version : Option String := none
deriving DecidableEq, Repr

/-- The outcome of the health-check GET, supplied as environment data:
either a response — with the result of decoding its JSON body into
`(capabilities, version)`, `Except.error` carrying the exception text of
a failed `response.json()` or a failed `MCPServiceStatus` validation —
or an exception raised by the request itself. -/
inductive HealthOutcome where
  | response (status : Int) (text : String)
      (parsed : Except String (List String × Option String)) : HealthOutcome
  | exception (msg : String) : HealthOutcome

/-- Model of `check_service_health`: look up the service configuration
by name only (the `enabled` flag is not consulted), build the
`/health` URL and issue a GET.  The second component records the URL the
GET was issued to, or `none` when no configuration was found and no
request was made. -/
def checkServiceHealth (configs : List MCPServerConfig) (serviceName : String)
    (now : Int) (o : HealthOutcome) : MCPServiceStatus × Option String :=
  match configs.find? (fun s => s.name == serviceName) with
  | none =>
    ({ name := serviceName
       endpoint := "unknown"
       status := "error"
       last_check := now
       error_message := some ("未找到名为 \x27" ++ serviceName ++ "\x27 的 MCP 服务配置") },
     none)
  | some sc =>
    let healthEndpoint :=
      if pyEndsWith sc.endpoint "/health" then sc.endpoint else sc.endpoint ++ "/health"
    let status :=
      match o with
      | .exception m =>
        { name := serviceName
          endpoint := sc.endpoint
          status := "offline"
          last_check := now
          error_message := some ("健康检查失败: " ++ m) }
      | .response st text parsed =>
        if st ≠ 200 then
          { name := serviceName
            endpoint := sc.endpoint
            status := "error"
            last_check := now
            error_message := some ("健康检查返回状态码 " ++ toString st ++ ": " ++ pyTake 100 text) }
        else
          match parsed with
          | .ok (caps, ver) =>
            { name := serviceName
              endpoint := sc.endpoint
              status := "online"
              last_check := now
              capabilities := caps
              version := ver }
          | .error em =>
            { name := serviceName
              endpoint := sc.endpoint
              status := "online"
              last_check := now
              error_message := some ("无法解析健康检查响应: " ++ em) }
    (status, some healthEndpoint)

namespace SpecModel

/-- Modelled from the spec: the connection states of §4.1 (the
`ServerConnection` state machine is not part of `src/`). -/
inductive ConnState where
  | disconnected : ConnState
  | connecting : ConnState
  | connected : ConnState
  | failed : ConnState
deriving DecidableEq, Repr

/-- Modelled from the spec: the outcome of one attempt to invoke a tool
over the streaming session — success, the distinct recognizable
"transport stream closed" condition, or any other failure. -/
inductive CallOutcome where
  | success (result : String) : CallOutcome
  | streamClosed : CallOutcome
  | failure (err : String) : CallOutcome
deriving DecidableEq, Repr

/-- Modelled from the spec: the error classes a `call_tool` invocation
can surface to its caller (§7). -/
inductive CallError where
  | notConnected (server : String) : CallError
  | streamClosed : CallError
  | other (err : String) : CallError
deriving DecidableEq, Repr

/-- Modelled from the spec: the final result of one `call_tool`
invocation. -/
inductive CallResult where
  | ok (result : String) : CallResult
  | error (e : CallError) : CallResult
deriving DecidableEq, Repr

/-- Modelled from the spec: the observable trace of one `call_tool`
invocation — its result, how many `reconnect()` calls were performed and
how many invocation attempts were made. -/
structure CallTrace where
  result : CallResult
  reconnects : Nat
  attempts : Nat
deriving DecidableEq, Repr

/-- Modelled from the spec: `ServerConnection.call_tool` (§4.1, not part
of `src/`).  It requires `Connected`; the outcomes of the at most two
attempts are supplied as environment values `a1`, `a2`.  A first failure
with the recognizable stream-closed condition triggers exactly one
reconnect and exactly one retry; any other failure, or any second
failure, propagates with no further retry (the function consumes no
outcome beyond `a2`). -/
def callTool (st : ConnState) (server : String) (a1 a2 : CallOutcome) : CallTrace :=
  if st = .connected then
    match a1 with
    | .success r => ⟨.ok r, 0, 1⟩
    | .failure e => ⟨.error (.other e), 0, 1⟩
    | .streamClosed =>
      match a2 with
      | .success r => ⟨.ok r, 1, 2⟩
      | .streamClosed => ⟨.error .streamClosed, 1, 2⟩
      | .failure e => ⟨.error (.other e), 1, 2⟩
  else ⟨.error (.notConnected server), 0, 0⟩

/-- Modelled from the spec: the exported content segments (§3). -/
inductive ContentSegment where
  | text (body : String) : ContentSegment
  | image (uri : String) : ContentSegment
deriving DecidableEq, Repr

/-- Modelled from the spec: one polymorphic result item (§4.4). -/
inductive RawContent where
  | text (t : String) : RawContent
  | image (mime : Option String) (b64 : String) : RawContent
  | embeddedText (t : String) : RawContent
  | embeddedBinary (mime : Option String) (b64 : String) : RawContent
  | unknown (tag : String) : RawContent
deriving DecidableEq, Repr

/-- Modelled from the spec: the ContentNormalizer (§4.4): text-like
items give one `text` segment, image-like items give one `image` segment
with a base64 data URI, an unrecognized item gives zero segments. -/
def normalizeContent : RawContent → List ContentSegment
  | .text t => [.text t]
  | .image mime b64 =>
    [.image ("data:" ++ mime.getD "application/octet-stream" ++ ";base64," ++ b64)]
  | .embeddedText t => [.text t]
  | .embeddedBinary mime b64 =>
    [.image ("data:" ++ mime.getD "application/octet-stream" ++ ";base64," ++ b64)]
  | .unknown _ => []

/-- Modelled from the spec: one invocation request of a batch (§3); the
name fields are optional because a request dict may omit them. -/
structure InvocationRequest where
  serverName : Option String
  toolName : Option String
  params : List (String × String)
deriving DecidableEq, Repr

/-- Modelled from the spec: what one resolved `call_tool` produced — a
content list, a tool-level error result, or a raised exception (§4.3). -/
inductive CallReply where
  | content (items : List RawContent) : CallReply
  | toolError (msg : String) : CallReply
  | raised (msg : String) : CallReply

/-- Rendering of a parameter mapping inside batch error segments. -/
def paramsStr (ps : List (String × String)) : String :=
  "\x7b" ++ String.intercalate ", " (ps.map (fun p => p.1 ++ "=" ++ p.2)) ++ "\x7d"

/-- Modelled from the spec: the error segment text for an unknown or
never-connected server, identifying the missing service and the
attempted tool and parameters (§4.3). -/
def unknownServerMsg (serverName toolName : String) (ps : List (String × String)) : String :=
  "错误: 未找到 MCP 服务 \x27" ++ serverName ++ "\x27 (工具: \x27" ++ toolName ++
    "\x27, 参数: " ++ paramsStr ps ++ ")"

/-- Modelled from the spec: the BatchDispatcher's handling of one
request (§4.3): malformed request → one text error segment; unknown
server → one text error segment; otherwise the call reply (supplied by
the environment `callEnv`) is normalized or converted to one error
segment. -/
def handleRequest (registry : List String) (callEnv : InvocationRequest → CallReply)
    (req : InvocationRequest) : List ContentSegment :=
  match req.serverName, req.toolName with
  | none, _ => [.text "错误: 请求缺少 server_name 或 tool_name"]
  | _, none => [.text "错误: 请求缺少 server_name 或 tool_name"]
  | some sn, some tn =>
    if sn ∈ registry then
      match callEnv req with
      | .content items => items.flatMap normalizeContent
      | .toolError m =>
        [.text ("错误: 工具 \x27" ++ tn ++ "\x27 在服务 \x27" ++ sn ++ "\x27 上执行失败 (参数: " ++
          paramsStr req.params ++ "): " ++ m)]
      | .raised m =>
        [.text ("错误: 调用工具 \x27" ++ tn ++ "\x27 时发生异常: " ++ m)]
    else
      [.text (unknownServerMsg sn tn req.params)]

/-- Modelled from the spec: the BatchDispatcher (§4.3): each request of
the batch is handled independently, in order, and the per-request
segment runs are concatenated. -/
def dispatch (registry : List String) (callEnv : InvocationRequest → CallReply)
    (reqs : List InvocationRequest) : List ContentSegment :=
  reqs.flatMap (handleRequest registry callEnv)

/-- Modelled from the spec: one declared server descriptor (§3). -/
structure ServerDescriptor where
  name : Option String
  endpoint : String
  enabled : Bool
  description : String
  headers : List (String × String)
  authToken : Option String
deriving DecidableEq, Repr

/-- Decode one server entry of the declarative configuration into a
`ServerDescriptor` (§6 shape). -/
def decodeDescriptor (j : JSON) : Option ServerDescriptor :=
  match j with
  | .obj fields => do
    let name ←
      match lookupLast fields "name" with
      | none => some none
      | some (.str s) => some (some s)
      | some _ => none
    let endpoint ← reqStr (lookupLast fields "endpoint")
    let enabled ← optBool true (lookupLast fields "enabled")
    let description ← optStr "" (lookupLast fields "description")
    let headers ← optStrMap (lookupLast fields "headers")
    let authToken ←
      match lookupLast fields "auth_token" with
      | none => some none
      | some (.str s) => some (some s)
      | some _ => none
    pure ⟨name, endpoint, enabled, description, headers, authToken⟩
  | _ => none

/-- Modelled from the spec: parse the declarative text into the server
descriptor list (§4.2 step 1); `none` is a parse failure. -/
def parseDescriptors (raw : String) : Option (List ServerDescriptor) :=
  match jsonParse raw with
  | some (.obj fields) =>
    match lookupLast fields "servers" with
    | some (.arr entries) =>
      entries.foldr (fun e acc =>
        match decodeDescriptor e, acc with
        | some d, some ds => some (d :: ds)
        | _, _ => none) (some [])
    | _ => none
  | _ => none

/-- Insert a rendered field into a key-sorted rendered field list (for
canonical re-serialization). -/
def insertRendered (p : String × String) : List (String × String) → List (String × String)
  | [] => [p]
  | q :: qs => if p.1 < q.1 then p :: q :: qs else q :: insertRendered p qs

/-- Sort rendered fields by key. -/
def sortRendered (fs : List (String × String)) : List (String × String) :=
  fs.foldr insertRendered []

mutual

/-- Modelled from the spec: canonical re-serialization of a parsed
configuration — object keys in sorted order — whose hash is the
configuration fingerprint (§4.2 step 2); the model uses the canonical
text itself as the fingerprint value. -/
def canonSer : JSON → String
  | .null => "null"
  | .bool true => "true"
  | .bool false => "false"
  | .num lex => lex
  | .str s => "\"" ++ s ++ "\""
  | .arr xs => "[" ++ String.intercalate "," (canonSerList xs) ++ "]"
  | .obj fs =>
    "\x7b" ++
      String.intercalate ","
        ((sortRendered (canonSerFields fs)).map (fun p => "\"" ++ p.1 ++ "\":" ++ p.2)) ++
      "\x7d"

/-- Canonical serialization of array items. -/
def canonSerList : List JSON → List String
  | [] => []
  | x :: xs => canonSer x :: canonSerList xs

/-- Canonical serialization of object fields, as (key, rendered value)
pairs; the caller sorts them by key. -/
def canonSerFields : List (String × JSON) → List (String × String)
  | [] => []
  | (k, v) :: fs => (k, canonSer v) :: canonSerFields fs

end

/-- Modelled from the spec: the configuration fingerprint — the
canonically re-serialized text when the text parses, the raw text
verbatim otherwise (§4.2 step 2). -/
def fingerprintOf (raw : String) : String :=
  match jsonParse raw with
  | some j => canonSer j
  | none => raw

/-- Modelled from the spec: the registry generation (§3): the mapping
from display name to connected descriptor plus the fingerprint of the
last-applied configuration. -/
structure Registry where
  connections : List (String × ServerDescriptor)
  fingerprint : Option String
deriving DecidableEq, Repr

/-- Modelled from the spec: one connect or close operation performed by
a reconcile, identified by the affected connection. -/
inductive ReconcileOp where
  | close (name : String) : ReconcileOp
  | connect (endpoint : String) : ReconcileOp
deriving DecidableEq, Repr

/-- Modelled from the spec: the environment of a reconcile — whether
connecting a descriptor succeeds, and the display name the server
reports at handshake (§4.1 `connect`). -/
structure ReconcileEnv where
  connectOk : ServerDescriptor → Bool
  displayName : ServerDescriptor → String

/-- Modelled from the spec: `ConfigReconciler.reconcile` (§4.2, not part
of `src/`): parse failure leaves the previous state untouched; an
unchanged fingerprint is a no-op; otherwise every existing connection is
closed and every enabled descriptor is connected (a failing connect is
skipped), and the new fingerprint is stored. -/
def reconcile (env : ReconcileEnv) (raw : String) (st : Registry) :
    Registry × List ReconcileOp :=
  match parseDescriptors raw with
  | none => (st, [])
  | some descs =>
    let fp := fingerprintOf raw
    if st.fingerprint = some fp then (st, [])
    else
      let closeOps := st.connections.map (fun c => ReconcileOp.close c.1)
      let enabled := descs.filter (fun d => d.enabled)
      let connectOps := enabled.map (fun d => ReconcileOp.connect d.endpoint)
      let newConns := (enabled.filter env.connectOk).map (fun d => (env.displayName d, d))
      (⟨newConns, some fp⟩, closeOps ++ connectOps)

end SpecModel

/-- A character list is a `listIsPre`-prefix of itself followed by
anything. -/
theorem listIsPre_self_append (p r : List Char) : listIsPre p (p ++ r) = true := by
  induction p with
  | nil => rfl
  | cons a as ih => simp [listIsPre, ih]

/-- `listIsPre` is stable under extending the large list on the right. -/
theorem listIsPre_append (p s t : List Char) (h : listIsPre p s = true) :
    listIsPre p (s ++ t) = true := by
  induction p generalizing s with
  | nil => rfl
  | cons a as ih =>
    cases s with
    | nil => simp [listIsPre] at h
    | cons b bs =>
      simp [listIsPre] at h ⊢
      exact ⟨h.1, ih bs h.2⟩

/-- `pyStartsWith` is stable under appending to the string. -/
theorem pyStartsWith_append (s t p : String) (h : pyStartsWith s p = true) :
    pyStartsWith (s ++ t) p = true := by
  unfold pyStartsWith at h ⊢
  rw [String.data_append]
  exact listIsPre_append p.data s.data t.data h

/-- A string starts with itself followed by anything. -/
theorem pyStartsWith_self_append (p t : String) : pyStartsWith (p ++ t) p = true := by
  unfold pyStartsWith
  rw [String.data_append]
  exact listIsPre_self_append p.data t.data

/-- C1. For a connected session, a tool invocation that first fails with
the recognizable stream-closed condition performs exactly one reconnect
and exactly one retry (two attempts in total, never a third): if the
retry succeeds its result is returned, and if the retry fails — with the
stream-closed condition or any other error — that second failure
propagates.  A first failure of any other kind propagates immediately
with zero reconnects and a single attempt, and a first success performs
no reconnect at all. -/
theorem c1_call_tool_retry_policy (server r e : String) (a2 : SpecModel.CallOutcome) :
    SpecModel.callTool .connected server .streamClosed (.success r) = ⟨.ok r, 1, 2⟩
    ∧ SpecModel.callTool .connected server .streamClosed .streamClosed =
        ⟨.error .streamClosed, 1, 2⟩
    ∧ SpecModel.callTool .connected server .streamClosed (.failure e) =
        ⟨.error (.other e), 1, 2⟩
    ∧ SpecModel.callTool .connected server (.failure e) a2 = ⟨.error (.other e), 0, 1⟩
    ∧ SpecModel.callTool .connected server (.success r) a2 = ⟨.ok r, 0, 1⟩ :=
  ⟨rfl, rfl, rfl, rfl, rfl⟩

/-- An enabled test server named "a". -/
def serverA : MCPServerConfig :=
  mkServerConfig "a" "http://a" true "" .hybrid "" [] [] [] ""

/-- A disabled test server named "b". -/
def serverB : MCPServerConfig :=
  mkServerConfig "b" "http://b" false "" .hybrid "" [] [] [] ""

/-- C2 counterexample. A health check on a server whose configuration
has `enabled = false` still issues a GET to that server's `/health`
endpoint: `check_service_health` looks the configuration up by name only
and never consults the `enabled` flag, so a disabled server is
contacted. -/
theorem c2_counterexample :
    serverB.enabled = false
    ∧ (checkServiceHealth [serverB] "b" 0 (.exception "connection refused")).2 =
        some "http://b/health" :=
  ⟨rfl, rfl⟩

/-- C2 (amended). A server all of whose matching configurations are
disabled is never contacted by the query or tool-execution operations:
request preparation resolves no service, and neither `_call_mcp_service`
nor `_execute_mcp_tool` issues a POST. -/
theorem c2_disabled_not_contacted (cfg : MCPGlobalConfig) (configs : List MCPServerConfig)
    (name suffix q tn : String) (args : List String) (o : HttpOutcome)
    (h : ∀ c ∈ configs, c.name = name → c.enabled = false) :
    prepareMCPRequest configs name suffix = none
    ∧ (callMCPService cfg configs name q o).2 = false
    ∧ (executeMCPTool cfg configs name tn args o).2 = false := by
  have hf : configs.find? (fun s => s.name == name && s.enabled) = none := by
    rw [List.find?_eq_none]
    intro x hx
    simp only [Bool.and_eq_true, beq_iff_eq, not_and]
    intro h1
    simp [h x hx h1]
  refine ⟨?_, ?_, ?_⟩ <;> simp [prepareMCPRequest, callMCPService, executeMCPTool, hf]

/-- C2 (amended) witness at a concrete disabled server. -/
theorem c2_disabled_not_contacted_witness :
    prepareMCPRequest [serverB] "b" "/query" = none
    ∧ (callMCPService defaultGlobalConfig [serverB] "b" "q" .timeout).2 = false
    ∧ (executeMCPTool defaultGlobalConfig [serverB] "b" "t" [] .timeout).2 = false :=
  c2_disabled_not_contacted defaultGlobalConfig [serverB] "b" "/query" "q" "t" [] .timeout
    (by decide)

/-- C3 counterexample. With a previously applied configuration state
containing server "a", parsing the text `\x7b"servers": "ab"\x7d` — a
top-level object whose `servers` value is a string, not an array —
returns the empty result but also REPLACES the previous state with the
empty list: Python iterates the string, every one-character entry fails
individually inside the loop, no exception escapes the `try` body, and
the `else` clause reassigns the global.  The previously parsed entry is
removed, contradicting the claim. -/
theorem c3_counterexample :
    parseServerConfigs "\x7b\"servers\": \"ab\"\x7d" [serverA] = ([], [])
    ∧ ([serverA] : List MCPServerConfig) ≠ [] :=
  ⟨rfl, by decide⟩

/-- C3 (amended). `_parse_server_configs` reports the failure and
returns the empty list leaving the previous state untouched in each of
these cases: the text is not valid JSON; the top-level value is not an
object; the top-level object has no `servers` key; the `servers` value
is not iterable (so the loop raises `TypeError` which escapes to the
outer handler).  (When the `servers` value is iterable but not an array,
the previous state is instead replaced — see the counterexample.) -/
theorem c3_parse_failure_preserves_state (raw : String) (prev : List MCPServerConfig) :
    (jsonParse raw = none → parseServerConfigs raw prev = ([], prev))
    ∧ (∀ j, jsonParse raw = some j → (∀ fs, j ≠ JSON.obj fs) →
        parseServerConfigs raw prev = ([], prev))
    ∧ (∀ fs, jsonParse raw = some (.obj fs) → lookupLast fs "servers" = none →
        parseServerConfigs raw prev = ([], prev))
    ∧ (∀ fs v, jsonParse raw = some (.obj fs) → lookupLast fs "servers" = some v →
        iterableEntries v = none → parseServerConfigs raw prev = ([], prev)) := by
  refine ⟨?_, ?_, ?_, ?_⟩
  · intro h
    simp [parseServerConfigs, h]
  · intro j h hno
    cases j with
    | obj fs => exact absurd rfl (hno fs)
    | null => simp [parseServerConfigs, h]
    | bool b => simp [parseServerConfigs, h]
    | num l => simp [parseServerConfigs, h]
    | str s => simp [parseServerConfigs, h]
    | arr xs => simp [parseServerConfigs, h]
  · intro fs h hl
    simp [parseServerConfigs, h, hl]
  · intro fs v h hl hi
    simp [parseServerConfigs, h, hl, hi]

/-- C3 (amended) witness: a non-JSON text, a non-object top level, an
object without a `servers` key and a non-iterable `servers` value all
leave a non-empty previous state untouched. -/
theorem c3_parse_failure_preserves_state_witness :
    parseServerConfigs "oops" [serverA] = ([], [serverA])
    ∧ parseServerConfigs "[1]" [serverA] = ([], [serverA])
    ∧ parseServerConfigs "\x7b\x7d" [serverA] = ([], [serverA])
    ∧ parseServerConfigs "\x7b\"servers\": 5\x7d" [serverA] = ([], [serverA]) :=
  ⟨(c3_parse_failure_preserves_state "oops" [serverA]).1 rfl,
   (c3_parse_failure_preserves_state "[1]" [serverA]).2.1 (.arr [.num "1"]) rfl
     (fun fs => by intro h; cases h),
   (c3_parse_failure_preserves_state "\x7b\x7d" [serverA]).2.2.1 [] rfl rfl,
   (c3_parse_failure_preserves_state "\x7b\"servers\": 5\x7d" [serverA]).2.2.2
     [("servers", .num "5")] (.num "5") rfl rfl rfl⟩

/-- C4. Every per-request failure of the query and tool-execution paths
is converted into a textual error result (a string starting with
"错误"), whatever the service configuration: unknown or disabled
service, unsupported tool, timeout, transport error, other exception,
non-200 status, oversized response (query path), an unparsable
`Content-Length` header, and an undecodable response body.  The entry
points are total functions of the request outcome, so no exception
propagates to the caller. -/
theorem c4_failures_become_error_text (cfg : MCPGlobalConfig) (configs : List MCPServerConfig)
    (name q tn : String) (args : List String) (o : HttpOutcome) :
    (prepareMCPRequest configs name "/query" = none →
      pyStartsWith (callMCPService cfg configs name q o).1 "错误" = true)
    ∧ (prepareMCPRequest configs name "/execute" = none →
      pyStartsWith (executeMCPTool cfg configs name tn args o).1 "错误" = true)
    ∧ (∀ sc url hs, prepareMCPRequest configs name "/execute" = some (sc, url, hs) →
      sc.tools ≠ [] → tn ∉ sc.tools →
      pyStartsWith (executeMCPTool cfg configs name tn args o).1 "错误" = true)
    ∧ (pyStartsWith (callMCPService cfg configs name q .timeout).1 "错误" = true)
    ∧ (pyStartsWith (executeMCPTool cfg configs name tn args .timeout).1 "错误" = true)
    ∧ (∀ m, pyStartsWith (callMCPService cfg configs name q (.requestError m)).1 "错误" = true)
    ∧ (∀ m, pyStartsWith (executeMCPTool cfg configs name tn args (.requestError m)).1
        "错误" = true)
    ∧ (∀ m, pyStartsWith (callMCPService cfg configs name q (.otherError m)).1 "错误" = true)
    ∧ (∀ m, pyStartsWith (executeMCPTool cfg configs name tn args (.otherError m)).1
        "错误" = true)
    ∧ (∀ resp, resp.status ≠ 200 →
      pyStartsWith (callMCPService cfg configs name q (.response resp)).1 "错误" = true
      ∧ pyStartsWith (executeMCPTool cfg configs name tn args (.response resp)).1 "错误" = true)
    ∧ (∀ resp n, pyInt (resp.contentLengthHeader.getD "0") = some n →
      n > cfg.MAX_RESPONSE_SIZE →
      pyStartsWith (callMCPService cfg configs name q (.response resp)).1 "错误" = true)
    ∧ (∀ resp, pyInt (resp.contentLengthHeader.getD "0") = none →
      pyStartsWith (callMCPService cfg configs name q (.response resp)).1 "错误" = true)
    ∧ (∀ resp em, resp.json = .error em →
      pyStartsWith (callMCPService cfg configs name q (.response resp)).1 "错误" = true
      ∧ pyStartsWith (executeMCPTool cfg configs name tn args (.response resp)).1
          "错误" = true) := by
  refine ⟨?_, ?_, ?_, ?_, ?_, ?_, ?_, ?_, ?_, ?_, ?_, ?_, ?_⟩
  · intro hp
    simp only [callMCPService, hp]
    repeat apply pyStartsWith_append
    decide
  · intro hp
    simp only [executeMCPTool, hp]
    repeat apply pyStartsWith_append
    decide
  · intro sc url hs hp hne hni
    simp only [executeMCPTool, hp, if_pos (And.intro hne hni)]
    repeat apply pyStartsWith_append
    decide
  · cases hp : prepareMCPRequest configs name "/query" with
    | none =>
      simp only [callMCPService, hp]
      repeat apply pyStartsWith_append
      decide
    | some p =>
      simp only [callMCPService, hp, callMCPServiceBody]
      repeat apply pyStartsWith_append
      decide
  · cases hp : prepareMCPRequest configs name "/execute" with
    | none =>
      simp only [executeMCPTool, hp]
      repeat apply pyStartsWith_append
      decide
    | some p =>
      obtain ⟨sc, url, hs⟩ := p
      simp only [executeMCPTool]
      rw [hp]
      by_cases ht : sc.tools ≠ [] ∧ tn ∉ sc.tools
      · simp only [if_pos ht]
        repeat apply pyStartsWith_append
        decide
      · simp only [if_neg ht, executeMCPToolBody]
        repeat apply pyStartsWith_append
        decide
  · intro m
    cases hp : prepareMCPRequest configs name "/query" with
    | none =>
      simp only [callMCPService, hp]
      repeat apply pyStartsWith_append
      decide
    | some p =>
      simp only [callMCPService, hp, callMCPServiceBody]
      repeat apply pyStartsWith_append
      decide
  · intro m
    cases hp : prepareMCPRequest configs name "/execute" with
    | none =>
      simp only [executeMCPTool, hp]
      repeat apply pyStartsWith_append
      decide
    | some p =>
      obtain ⟨sc, url, hs⟩ := p
      simp only [executeMCPTool]
      rw [hp]
      by_cases ht : sc.tools ≠ [] ∧ tn ∉ sc.tools
      · simp only [if_pos ht]
        repeat apply pyStartsWith_append
        decide
      · simp only [if_neg ht, executeMCPToolBody]
        repeat apply pyStartsWith_append
        decide
  · intro m
    cases hp : prepareMCPRequest configs name "/query" with
    | none =>
      simp only [callMCPService, hp]
      repeat apply pyStartsWith_append
      decide
    | some p =>
      simp only [callMCPService, hp, callMCPServiceBody]
      repeat apply pyStartsWith_append
      decide
  · intro m
    cases hp : prepareMCPRequest configs name "/execute" with
    | none =>
      simp only [executeMCPTool, hp]
      repeat apply pyStartsWith_append
      decide
    | some p =>
      obtain ⟨sc, url, hs⟩ := p
      simp only [executeMCPTool]
      rw [hp]
      by_cases ht : sc.tools ≠ [] ∧ tn ∉ sc.tools
      · simp only [if_pos ht]
        repeat apply pyStartsWith_append
        decide
      · simp only [if_neg ht, executeMCPToolBody]
        repeat apply pyStartsWith_append
        decide
  · intro resp hst
    constructor
    · cases hp : prepareMCPRequest configs name "/query" with
      | none =>
        simp only [callMCPService, hp]
        repeat apply pyStartsWith_append
        decide
      | some p =>
        simp only [callMCPService, hp, callMCPServiceBody, if_pos hst]
        repeat apply pyStartsWith_append
        decide
    · cases hp : prepareMCPRequest configs name "/execute" with
      | none =>
        simp only [executeMCPTool, hp]
        repeat apply pyStartsWith_append
        decide
      | some p =>
        obtain ⟨sc, url, hs⟩ := p
        simp only [executeMCPTool]
        rw [hp]
        by_cases ht : sc.tools ≠ [] ∧ tn ∉ sc.tools
        · simp only [if_pos ht]
          repeat apply pyStartsWith_append
          decide
        · simp only [if_neg ht, executeMCPToolBody, if_pos hst]
          repeat apply pyStartsWith_append
          decide
  · intro resp n hcl hn
    cases hp : prepareMCPRequest configs name "/query" with
    | none =>
      simp only [callMCPService, hp]
      repeat apply pyStartsWith_append
      decide
    | some p =>
      simp only [callMCPService, hp, callMCPServiceBody]
      by_cases hst : resp.status ≠ 200
      · simp only [if_pos hst]
        repeat apply pyStartsWith_append
        decide
      · simp only [if_neg hst, hcl, if_pos hn]
        repeat apply pyStartsWith_append
        decide
  · intro resp hcl
    cases hp : prepareMCPRequest configs name "/query" with
    | none =>
      simp only [callMCPService, hp]
      repeat apply pyStartsWith_append
      decide
    | some p =>
      simp only [callMCPService, hp, callMCPServiceBody]
      by_cases hst : resp.status ≠ 200
      · simp only [if_pos hst]
        repeat apply pyStartsWith_append
        decide
      · simp only [if_neg hst, hcl]
        repeat apply pyStartsWith_append
        decide
  · intro resp em hj
    constructor
    · cases hp : prepareMCPRequest configs name "/query" with
      | none =>
        simp only [callMCPService, hp]
        repeat apply pyStartsWith_append
        decide
      | some p =>
        simp only [callMCPService, hp, callMCPServiceBody]
        by_cases hst : resp.status ≠ 200
        · simp only [if_pos hst]
          repeat apply pyStartsWith_append
          decide
        · cases hcl : pyInt (resp.contentLengthHeader.getD "0") with
          | none =>
            simp only [if_neg hst, hcl]
            repeat apply pyStartsWith_append
            decide
          | some n =>
            by_cases hn : n > cfg.MAX_RESPONSE_SIZE
            · simp only [if_neg hst, hcl, if_pos hn]
              repeat apply pyStartsWith_append
              decide
            · simp only [if_neg hst, hcl, if_neg hn, hj]
              repeat apply pyStartsWith_append
              decide
    · cases hp : prepareMCPRequest configs name "/execute" with
      | none =>
        simp only [executeMCPTool, hp]
        repeat apply pyStartsWith_append
        decide
      | some p =>
        obtain ⟨sc, url, hs⟩ := p
        simp only [executeMCPTool]
        rw [hp]
        by_cases ht : sc.tools ≠ [] ∧ tn ∉ sc.tools
        · simp only [if_pos ht]
          repeat apply pyStartsWith_append
          decide
        · simp only [if_neg ht, executeMCPToolBody]
          by_cases hst : resp.status ≠ 200
          · simp only [if_pos hst]
            repeat apply pyStartsWith_append
            decide
          · simp only [if_neg hst, hj]
            repeat apply pyStartsWith_append
            decide

/-- C4 witness at concrete failing requests: an unknown service, a
disabled service, a 500 response, an unparsable `Content-Length` header
and an undecodable body all yield "错误"-prefixed result text. -/
theorem c4_failures_become_error_text_witness :
    pyStartsWith (callMCPService defaultGlobalConfig [serverA] "nosuch" "q" .timeout).1
        "错误" = true
    ∧ pyStartsWith (executeMCPTool defaultGlobalConfig [serverB] "b" "t" [] .timeout).1
        "错误" = true
    ∧ pyStartsWith (callMCPService defaultGlobalConfig [serverA] "a" "q"
        (.response ⟨500, none, "boom", .error "bad"⟩)).1 "错误" = true
    ∧ pyStartsWith (callMCPService defaultGlobalConfig [serverA] "a" "q"
        (.response ⟨200, some "abc", "x", .ok .null⟩)).1 "错误" = true
    ∧ pyStartsWith (callMCPService defaultGlobalConfig [serverA] "a" "q"
        (.response ⟨200, some "0", "x", .error "Expecting value"⟩)).1 "错误" = true := by
  refine ⟨?_, ?_, ?_, ?_, ?_⟩
  · exact (c4_failures_become_error_text defaultGlobalConfig [serverA] "nosuch" "q" "t" []
      .timeout).1 rfl
  · exact (c4_failures_become_error_text defaultGlobalConfig [serverB] "b" "q" "t" []
      .timeout).2.1 rfl
  · exact ((c4_failures_become_error_text defaultGlobalConfig [serverA] "a" "q" "t" []
      (.response ⟨500, none, "boom", .error "bad"⟩)).2.2.2.2.2.2.2.2.2.1
        ⟨500, none, "boom", .error "bad"⟩ (by decide)).1
  · exact (c4_failures_become_error_text defaultGlobalConfig [serverA] "a" "q" "t" []
      (.response ⟨200, some "abc", "x", .ok .null⟩)).2.2.2.2.2.2.2.2.2.2.2.1
        ⟨200, some "abc", "x", .ok .null⟩ rfl
  · exact ((c4_failures_become_error_text defaultGlobalConfig [serverA] "a" "q" "t" []
      (.response ⟨200, some "0", "x", .error "Expecting value"⟩)).2.2.2.2.2.2.2.2.2.2.2.2
        ⟨200, some "0", "x", .error "Expecting value"⟩ "Expecting value" rfl).1

/-- C5. In a batch, a request naming a server that is not in the
registry (disabled or never connected) contributes exactly one text
error segment — identifying the missing service, the attempted tool and
the parameters — and the requests before and after it are dispatched
exactly as they would be on their own: no short-circuiting, no lost
segments. -/
theorem c5_unknown_server_isolated (registry : List String)
    (callEnv : SpecModel.InvocationRequest → SpecModel.CallReply)
    (pre post : List SpecModel.InvocationRequest) (sn tn : String)
    (ps : List (String × String)) (h : sn ∉ registry) :
    SpecModel.dispatch registry callEnv (pre ++ ⟨some sn, some tn, ps⟩ :: post) =
      SpecModel.dispatch registry callEnv pre ++
        [SpecModel.ContentSegment.text (SpecModel.unknownServerMsg sn tn ps)] ++
        SpecModel.dispatch registry callEnv post := by
  simp only [SpecModel.dispatch, List.flatMap_append, List.flatMap_cons]
  simp [SpecModel.handleRequest, h]

/-- C5 witness: a three-request batch whose middle request targets the
unknown server "b" yields the segments of requests one and three around
exactly one error segment for request two. -/
theorem c5_unknown_server_isolated_witness :
    SpecModel.dispatch ["a"] (fun _ => .content [.text "ok"])
        ([⟨some "a", some "t1", []⟩] ++ ⟨some "b", some "t2", [("k", "v")]⟩ ::
          [⟨some "a", some "t3", []⟩]) =
      SpecModel.dispatch ["a"] (fun _ => .content [.text "ok"]) [⟨some "a", some "t1", []⟩] ++
        [SpecModel.ContentSegment.text (SpecModel.unknownServerMsg "b" "t2" [("k", "v")])] ++
        SpecModel.dispatch ["a"] (fun _ => .content [.text "ok"]) [⟨some "a", some "t3", []⟩] :=
  c5_unknown_server_isolated ["a"] (fun _ => .content [.text "ok"])
    [⟨some "a", some "t1", []⟩] [⟨some "a", some "t3", []⟩] "b" "t2" [("k", "v")] (by decide)

/-- A plugin configuration with a one-minute cache expiry. -/
def cacheCfg : MCPGlobalConfig := { CACHE_EXPIRY := 60 }

/-- C6 counterexample. With `CACHE_EXPIRY = 60`, two identical query
calls ten seconds apart do NOT each perform a fresh request: the first
stores its result, the second returns the stored text without invoking
`_call_mcp_service` — its output depends on the result stored by the
earlier invocation ("first"), not on what a fresh call would return
("second"). -/
theorem c6_counterexample :
    (mcpQuery cacheCfg emptyCache "chat" "svc" "q" 100 "first").calledService = true
    ∧ (mcpQuery cacheCfg (mcpQuery cacheCfg emptyCache "chat" "svc" "q" 100 "first").cache
        "chat" "svc" "q" 110 "second").calledService = false
    ∧ (mcpQuery cacheCfg (mcpQuery cacheCfg emptyCache "chat" "svc" "q" 100 "first").cache
        "chat" "svc" "q" 110 "second").output =
          "[MCP:svc] 缓存结果 (10秒前):\nfirst" :=
  ⟨rfl, rfl, rfl⟩

/-- C6 (amended). Under the default configuration `CACHE_EXPIRY = 0`
(and any non-positive expiry) no caching takes place: every `mcp_query`
call invokes `_call_mcp_service` and returns the fresh result, whatever
the cache contains; and the tool-execution path consults no cache at all
(`_execute_mcp_tool` is a function of the configuration and the request
outcome only).  With `CACHE_EXPIRY > 0`, an unexpired entry is returned
without a fresh request (see the counterexample). -/
theorem c6_no_caching_when_disabled (cfg : MCPGlobalConfig) (cache : MCPCache)
    (chatKey serviceName query : String) (now : Int) (serviceResult : String)
    (h : cfg.CACHE_EXPIRY ≤ 0) :
    (mcpQuery cfg cache chatKey serviceName query now serviceResult).calledService = true
    ∧ (mcpQuery cfg cache chatKey serviceName query now serviceResult).output =
        "[MCP:" ++ serviceName ++ "] 查询结果:\n" ++ serviceResult := by
  have hc : ¬ cfg.CACHE_EXPIRY > 0 := by omega
  constructor <;> simp [mcpQuery, hc]

/-- C6 (amended) witness: with the default configuration a query whose
exact cache entry exists is still answered by a fresh call. -/
theorem c6_no_caching_when_disabled_witness :
    (mcpQuery defaultGlobalConfig
        (cacheSet emptyCache "chat" "svc" "query:q" ⟨"old", 100⟩)
        "chat" "svc" "q" 110 "fresh").calledService = true
    ∧ (mcpQuery defaultGlobalConfig
        (cacheSet emptyCache "chat" "svc" "query:q" ⟨"old", 100⟩)
        "chat" "svc" "q" 110 "fresh").output = "[MCP:svc] 查询结果:\nfresh" :=
  c6_no_caching_when_disabled defaultGlobalConfig
    (cacheSet emptyCache "chat" "svc" "query:q" ⟨"old", 100⟩)
    "chat" "svc" "q" 110 "fresh" (by decide)

/-- C7. Reconcile is idempotent: running `reconcile` a second time with
the same configuration text (and the same connect environment) returns
the state produced by the first run unchanged and performs zero connect
or close operations — whether the first run was a parse failure, a
fingerprint match, or a full rebuild that stored the new fingerprint. -/
theorem c7_reconcile_idempotent (env : SpecModel.ReconcileEnv) (raw : String)
    (st : SpecModel.Registry) :
    SpecModel.reconcile env raw (SpecModel.reconcile env raw st).1 =
      ((SpecModel.reconcile env raw st).1, ([] : List SpecModel.ReconcileOp)) := by
  cases hp : SpecModel.parseDescriptors raw with
  | none => simp [SpecModel.reconcile, hp]
  | some descs =>
    by_cases hfp : st.fingerprint = some (SpecModel.fingerprintOf raw)
    · simp [SpecModel.reconcile, hp, hfp]
    · simp [SpecModel.reconcile, hp, hfp]

/-- Inversion of a successful `Option.bind`. -/
theorem bind_some_inv {α β : Type} (o : Option α) (f : α → Option β) (b : β)
    (h : Option.bind o f = some b) : ∃ a, o = some a ∧ f a = some b := by
  cases o with
  | none => simp at h
  | some a => exact ⟨a, rfl, h⟩

/-- The endpoint produced by `validate_endpoint` always carries an
`http://` or `https://` scheme. -/
theorem validateEndpoint_scheme (e : String) :
    pyStartsWith (validateEndpoint e) "http://" = true ∨
      pyStartsWith (validateEndpoint e) "https://" = true := by
  unfold validateEndpoint
  by_cases h : (pyStartsWith e "http://" || pyStartsWith e "https://") = true
  · rw [if_pos h]
    rcases Bool.or_eq_true_iff.mp h with h1 | h1
    · exact Or.inl h1
    · exact Or.inr h1
  · rw [if_neg h]
    exact Or.inl (pyStartsWith_self_append "http://" e)

/-- Every configuration produced by `decodeServerEntry` has an endpoint
that went through `validate_endpoint`. -/
theorem decodeServerEntry_endpoint (j : JSON) (c : MCPServerConfig)
    (h : decodeServerEntry j = some c) : ∃ e, c.endpoint = validateEndpoint e := by
  cases j with
  | obj fields =>
    simp only [decodeServerEntry] at h
    obtain ⟨nm, hnm, h⟩ := bind_some_inv _ _ _ h
    obtain ⟨ep, hep, h⟩ := bind_some_inv _ _ _ h
    obtain ⟨en, hen, h⟩ := bind_some_inv _ _ _ h
    obtain ⟨de, hde, h⟩ := bind_some_inv _ _ _ h
    obtain ⟨st, hst, h⟩ := bind_some_inv _ _ _ h
    obtain ⟨pt, hpt, h⟩ := bind_some_inv _ _ _ h
    obtain ⟨re, hre, h⟩ := bind_some_inv _ _ _ h
    obtain ⟨tl, htl, h⟩ := bind_some_inv _ _ _ h
    obtain ⟨he, hhe, h⟩ := bind_some_inv _ _ _ h
    obtain ⟨au, hau, h⟩ := bind_some_inv _ _ _ h
    simp at h
    exact ⟨ep, by rw [← h]; rfl⟩
  | null => simp [decodeServerEntry] at h
  | bool b => simp [decodeServerEntry] at h
  | num l => simp [decodeServerEntry] at h
  | str s => simp [decodeServerEntry] at h
  | arr xs => simp [decodeServerEntry] at h

/-- C9. Endpoint-normalization invariant: `validate_endpoint` always
yields an endpoint with an `http://` or `https://` scheme; every
configuration produced by `_parse_server_configs` satisfies that
invariant; and every request URL the system builds is derived from the
stored endpoint — `_prepare_mcp_request` (query / execute) returns the
endpoint itself or the endpoint with the suffix appended, and
`check_service_health` issues its GET to the endpoint itself or the
endpoint with `/health` appended. -/
theorem c9_endpoint_invariant :
    (∀ e, pyStartsWith (validateEndpoint e) "http://" = true ∨
      pyStartsWith (validateEndpoint e) "https://" = true)
    ∧ (∀ raw prev c, c ∈ (parseServerConfigs raw prev).1 →
      pyStartsWith c.endpoint "http://" = true ∨ pyStartsWith c.endpoint "https://" = true)
    ∧ (∀ configs name suffix sc url hdr,
      prepareMCPRequest configs name suffix = some (sc, url, hdr) →
      url = sc.endpoint ∨ url = sc.endpoint ++ suffix)
    ∧ (∀ configs name now o st ep,
      checkServiceHealth configs name now o = (st, some ep) →
      ∃ c, configs.find? (fun s => s.name == name) = some c ∧
        (ep = c.endpoint ∨ ep = c.endpoint ++ "/health")) := by
  refine ⟨validateEndpoint_scheme, ?_, ?_, ?_⟩
  · intro raw prev c hc
    cases hjp : jsonParse raw with
    | none => simp [parseServerConfigs, hjp] at hc
    | some j =>
      cases j with
      | obj fields =>
        cases hl : lookupLast fields "servers" with
        | none => simp [parseServerConfigs, hjp, hl] at hc
        | some v =>
          cases hi : iterableEntries v with
          | none => simp [parseServerConfigs, hjp, hl, hi] at hc
          | some entries =>
            simp only [parseServerConfigs, hjp, hl, hi] at hc
            obtain ⟨e, _, hdec⟩ := List.mem_filterMap.mp hc
            obtain ⟨s, hs⟩ := decodeServerEntry_endpoint e c hdec
            rw [hs]
            exact validateEndpoint_scheme s
      | null => simp [parseServerConfigs, hjp] at hc
      | bool b => simp [parseServerConfigs, hjp] at hc
      | num l => simp [parseServerConfigs, hjp] at hc
      | str s => simp [parseServerConfigs, hjp] at hc
      | arr xs => simp [parseServerConfigs, hjp] at hc
  · intro configs name suffix sc url hdr hp
    unfold prepareMCPRequest at hp
    cases hf : configs.find? (fun s => s.name == name && s.enabled) with
    | none => rw [hf] at hp; simp at hp
    | some sc' =>
      rw [hf] at hp
      simp only [Option.some_inj, Prod.mk.injEq] at hp
      obtain ⟨hsc, hurl, _⟩ := hp
      by_cases hend : pyEndsWith sc'.endpoint suffix = true
      · rw [if_pos hend] at hurl
        exact Or.inl (by rw [← hurl, hsc])
      · rw [if_neg hend] at hurl
        exact Or.inr (by rw [← hurl, hsc])
  · intro configs name now o st ep hh
    unfold checkServiceHealth at hh
    cases hf : configs.find? (fun s => s.name == name) with
    | none => rw [hf] at hh; simp at hh
    | some c =>
      rw [hf] at hh
      simp only [Prod.mk.injEq, Option.some_inj] at hh
      refine ⟨c, rfl, ?_⟩
      by_cases hend : pyEndsWith c.endpoint "/health" = true
      · rw [if_pos hend] at hh
        exact Or.inl hh.2.symm
      · rw [if_neg hend] at hh
        exact Or.inr hh.2.symm

/-- C9 witness at concrete inputs: a scheme-less endpoint is normalized,
a parsed configuration carries the scheme, and the query and health URLs
derive from the stored endpoint. -/
theorem c9_endpoint_invariant_witness :
    (pyStartsWith (validateEndpoint "a") "http://" = true ∨
      pyStartsWith (validateEndpoint "a") "https://" = true)
    ∧ (pyStartsWith serverA.endpoint "http://" = true ∨
      pyStartsWith serverA.endpoint "https://" = true)
    ∧ ("http://a/query" = serverA.endpoint ∨ "http://a/query" = serverA.endpoint ++ "/query")
    ∧ (∃ c, [serverB].find? (fun s => s.name == "b") = some c ∧
        ("http://b/health" = c.endpoint ∨ "http://b/health" = c.endpoint ++ "/health")) := by
  refine ⟨c9_endpoint_invariant.1 "a", ?_, ?_, ?_⟩
  · exact c9_endpoint_invariant.2.1
      "\x7b\"servers\": [\x7b\"name\": \"a\", \"endpoint\": \"http://a\"\x7d]\x7d" [] serverA
      (by rw [show (parseServerConfigs
        "\x7b\"servers\": [\x7b\"name\": \"a\", \"endpoint\": \"http://a\"\x7d]\x7d" []).1 =
          [serverA] from rfl]; exact List.mem_singleton.mpr rfl)
  · exact c9_endpoint_invariant.2.2.1 [serverA] "a" "/query" serverA "http://a/query" [] rfl
  · exact c9_endpoint_invariant.2.2.2 [serverB] "b" 0 (.exception "down")
      (checkServiceHealth [serverB] "b" 0 (.exception "down")).1 "http://b/health" rfl

/-- C10. Tool-name validation applies only when a tool list is declared.
For a resolved (available) service: if the configured tool list is
non-empty and does not contain the requested tool, `_execute_mcp_tool`
returns the unsupported-tool error and issues no request — the result is
the same for every request outcome `o`, so the server is not contacted;
if the configured tool list is empty, the request is forwarded for any
tool name whatsoever and the result is the ordinary handling of the
outcome. -/
theorem c10_tool_validation (cfg : MCPGlobalConfig) (configs : List MCPServerConfig)
    (name tn : String) (args : List String) (sc : MCPServerConfig) (url : String)
    (hdr : List (String × String)) (o : HttpOutcome)
    (hp : prepareMCPRequest configs name "/execute" = some (sc, url, hdr)) :
    (sc.tools ≠ [] → tn ∉ sc.tools →
      executeMCPTool cfg configs name tn args o =
        ("错误: MCP 服务 \x27" ++ name ++ "\x27 不支持工具 \x27" ++ tn ++ "\x27", false))
    ∧ (sc.tools = [] →
      executeMCPTool cfg configs name tn args o = (executeMCPToolBody cfg name o, true)) := by
  constructor
  · intro h1 h2
    simp only [executeMCPTool, hp]
    rw [if_pos (And.intro h1 h2)]
  · intro h0
    simp only [executeMCPTool, hp]
    rw [if_neg (by simp [h0])]

/-- An enabled test server with a declared tool list. -/
def serverT : MCPServerConfig :=
  mkServerConfig "t" "http://t" true "" .hybrid "" [] ["t1"] [] ""

/-- C10 witness: a declared tool list rejects an unlisted tool without
contacting the server; an empty tool list forwards any tool name. -/
theorem c10_tool_validation_witness :
    executeMCPTool defaultGlobalConfig [serverT] "t" "nope" [] .timeout =
      ("错误: MCP 服务 \x27t\x27 不支持工具 \x27nope\x27", false)
    ∧ executeMCPTool defaultGlobalConfig [serverA] "a" "anything" [] .timeout =
      (executeMCPToolBody defaultGlobalConfig "a" .timeout, true) :=
  ⟨(c10_tool_validation defaultGlobalConfig [serverT] "t" "nope" [] serverT
      "http://t/execute" [] .timeout rfl).1 (by decide) (by decide),
   (c10_tool_validation defaultGlobalConfig [serverA] "a" "anything" [] serverA
      "http://a/execute" [] .timeout rfl).2 rfl⟩

/-- The documented configuration shape written in strict JSON. -/
def strictRaw : String :=
  "\x7b\"servers\": [\x7b\"name\": \"a\", \"endpoint\": \"http://a\"\x7d]\x7d"

/-- The same configuration with a comment added. -/
def commentRaw : String :=
  "\x7b\"servers\": [\x7b\"name\": \"a\", \"endpoint\": \"http://a\"\x7d] /* demo */\x7d"

/-- C8 counterexample. The configuration parser is `json.loads`, which
accepts strict JSON only: for a configuration text of the documented
shape that additionally contains a comment, parsing does not succeed —
`json.loads` raises and `_parse_server_configs` yields the empty list,
not the corresponding descriptor list (which the comment-free text
yields). -/
theorem c8_counterexample :
    jsonParse commentRaw = none
    ∧ (parseServerConfigs commentRaw []).1 = []
    ∧ (parseServerConfigs strictRaw []).1 = [serverA] :=
  ⟨rfl, rfl, rfl⟩

/-- C8 (amended). The parser accepts the documented
`\x7b"servers": [...]\x7d` shape in strict JSON, yielding the descriptor
list; a text containing a comment fails to parse, yields the empty list
and leaves the previous state untouched. -/
theorem c8_strict_json_only :
    parseServerConfigs strictRaw [serverB] = ([serverA], [serverA])
    ∧ parseServerConfigs commentRaw [serverB] = ([], [serverB]) :=
  ⟨rfl, rfl⟩
